import Mathlib

/-!
Verification development for the streaming XLSX writer
(`stream_file_builder.go`): a `StreamFileBuilder` registering sheets and
shared strings, and a `StreamFile` session that streams rows into a zip
archive one sheet at a time.

Shallow embedding conventions:
* Go methods that mutate the receiver and return an `error` become pure
  functions `State → State × Option Err`.
* Go `panic` (out-of-bounds indexing, nil dereference) is modelled by an
  outer `Option`: `none` means the call panics and never returns.
* The zip writer (external collaborator `archive/zip`) is modelled as an
  `Archive`: an ordered list of entries (most recent first), a `closed`
  flag, and a schedule of injected sink faults so that I/O failure paths
  of the source can be exercised.  An empty schedule is the error-free
  sink.  Writing to a closed archive fails, as Go's zip writer does.
* The row-encoding collaborator (`makeXLSXRowForStreaming` + `xml.Marshal`)
  and the shared-string serializer (`makeXLSXSST` + `marshalFullFile`) are
  not in the source under verification; they are universally quantified
  functions `enc` / `sstXml` (spec section 4.4 treats them as opaque).
-/

namespace Xlsx

/-- Error values of the source file.  Each constructor corresponds to one
`errors.New` value (or error family) in `stream_file_builder.go`; `sink`
carries errors produced by the underlying archive writer. -/
inductive Err where
  | alreadyBuilt
  | duplicateSheetName
  | noCurrentSheet
  | wrongNumberOfRows
  | alreadyOnLastSheet
  | malformedTemplate
  | unexpectedSheetName
  | unexpectedSheetIndex
  | sink (msg : String)
deriving DecidableEq, Repr

/-- Model of the zip writer: entries are kept most-recent-first; `closed`
mirrors the writer having been closed; `faults` is a schedule of injected
sink results (one consumed per sink call, `none` = success), so that the
error-handling paths of the source can be exercised. -/
structure Archive where
  entriesRev : List (String × String)
  closed : Bool
  faults : List (Option String)
deriving DecidableEq, Repr

/-- Consume one entry of the fault schedule. -/
def Archive.step (a : Archive) : Option String × Archive :=
  match a.faults with
  | [] => (none, a)
  | f :: fs => (f, { a with faults := fs })

/-- Model of `zip.Writer.Create`: opens a new entry with empty content. -/
def Archive.create (a : Archive) (path : String) : Archive × Option Err :=
  if a.closed then (a, some (Err.sink "zip: writer closed")) else
  match a.step with
  | (some m, a1) => (a1, some (Err.sink m))
  | (none, a1) => ({ a1 with entriesRev := (path, "") :: a1.entriesRev }, none)

/-- Model of writing bytes to the currently open entry
(`streamSheet.write` / `io.Writer.Write`). -/
def Archive.writeLast (a : Archive) (data : String) : Archive × Option Err :=
  if a.closed then (a, some (Err.sink "zip: writer closed")) else
  match a.step with
  | (some m, a1) => (a1, some (Err.sink m))
  | (none, a1) =>
    match a1.entriesRev with
    | [] => (a1, none)
    | (p, c) :: rest => ({ a1 with entriesRev := (p, c ++ data) :: rest }, none)

/-- Model of `zip.Writer.Flush`. -/
def Archive.flush (a : Archive) : Archive × Option Err :=
  match a.step with
  | (some m, a1) => (a1, some (Err.sink m))
  | (none, a1) => (a1, none)

/-- Model of `zip.Writer.Close`. -/
def Archive.closeArchive (a : Archive) : Archive × Option Err :=
  if a.closed then (a, some (Err.sink "zip: writer closed")) else
  match a.step with
  | (some m, a1) => (a1, some (Err.sink m))
  | (none, a1) => ({ a1 with closed := true }, none)

/-- Constant `sheetFilePathPrefix` of the source ("xl/worksheets/sheet");
renamed, the path-pattern start. -/
def sheetFilePathStart : String := "xl/worksheets/sheet"

/-- Constant `sheetFilePathSuffix` of the source (".xml"). -/
def sheetFilePathEnding : String := ".xml"

/-- Constant `endSheetDataTag` of the source. -/
def endSheetDataTag : String := "</sheetData>"

/-- The tag as a character list, for the split algorithm. -/
def tagL : List Char := endSheetDataTag.data

/-- Modelled from the spec: the shared-string entry has a "single fixed
path" (spec section 6); the constant `sharedStringsFilePath` itself lives
outside the source file under verification. -/
def sharedStringsFilePath : String := "xl/sharedStrings.xml"

/-- The canonical path of sheet `n` (1-based), as built inline in
`StreamFile.NextSheet`. -/
def sheetPath (n : Nat) : String :=
  sheetFilePathStart ++ toString n ++ sheetFilePathEnding

/-- Modelled from the spec: `RefTable.AddString` (spec section 4.3) —
returns the existing index if the value was previously added, otherwise
appends it; the `RefTable` type is not part of the source file under
verification.  The table is the ordered list of interned strings. -/
def addString (rt : List String) (s : String) : List String × Nat :=
  match rt.findIdx? (fun t => t == s) with
  | some i => (rt, i)
  | none => (rt ++ [s], rt.length)

/-- Modelled from the spec: the row-encoding collaborator interns each
cell value in the shared-string table on first use (spec section 4.4). -/
def internRow (rt : List String) (cells : List String) : List String :=
  cells.foldl (fun t c => (addString t c).1) rt

/-- The `streamSheet` struct of the source (the open entry's writer is
represented by the archive's head entry). -/
structure StreamSheet where
  index : Nat
  rowCount : Nat
  columnCount : Nat
deriving DecidableEq, Repr

/-- The `StreamFile` struct.  `sheets` models `file.Sheets` by the data
the session reads from it: `len(file.Sheets[i].Cols)`, the column count
fixed by each sheet's header row.  `prefixTemplates` / `suffixTemplates`
are the source's `sheetXmlPrefix` / `sheetXmlSuffix` arrays. -/
structure StreamFile where
  sheets : List Nat
  prefixTemplates : List String
  suffixTemplates : List String
  currentSheet : Option StreamSheet
  refTable : List String
  err : Option Err
  archive : Archive
deriving DecidableEq, Repr

/-- One registered sheet of the builder: its unique name and its header
row (whose length fixes the column count). -/
structure SheetInfo where
  name : String
  headers : List String
deriving DecidableEq, Repr

/-- The `StreamFileBuilder` struct. -/
structure StreamFileBuilder where
  built : Bool
  sheets : List SheetInfo
  refTable : List String
  archive : Archive
deriving DecidableEq, Repr

section SessionOps

variable (enc : Nat → List String → String)

/-- `StreamFile.write` (the unexported row writer).  `enc` is the opaque
row-encoding collaborator; the Go code passes `rowCount-1` after the
increment, i.e. the pre-increment row count. -/
def write (sf : StreamFile) (cells : List String) : StreamFile × Option Err :=
  match sf.currentSheet with
  | none => (sf, some Err.noCurrentSheet)
  | some cs =>
    if cells.length = cs.columnCount then
      let sf1 := { sf with
        currentSheet := some { cs with rowCount := cs.rowCount + 1 },
        refTable := internRow sf.refTable cells }
      let wr := sf1.archive.writeLast (enc cs.rowCount cells)
      let sf2 := { sf1 with archive := wr.1 }
      match wr.2 with
      | some e => (sf2, some e)
      | none =>
        let fl := sf2.archive.flush
        ({ sf2 with archive := fl.1 }, fl.2)
    else (sf, some Err.wrongNumberOfRows)

/-- `StreamFile.Write`.  Note the source stores the row writer's error in
`sf.err` but returns the trailing `zipWriter.Flush()` result unrecorded. -/
def WriteOp (sf : StreamFile) (cells : List String) : StreamFile × Option Err :=
  match sf.err with
  | some e => (sf, some e)
  | none =>
    let w := write enc sf cells
    match w.2 with
    | some e => ({ w.1 with err := some e }, some e)
    | none =>
      let fl := w.1.archive.flush
      ({ w.1 with archive := fl.1 }, fl.2)

/-- The loop body of `StreamFile.WriteAll`: write each row, stopping and
recording the first failure; on success return the trailing flush. -/
def writeRows (sf : StreamFile) : List (List String) → StreamFile × Option Err
  | [] =>
    let fl := sf.archive.flush
    ({ sf with archive := fl.1 }, fl.2)
  | row :: rest =>
    let w := write enc sf row
    match w.2 with
    | some e => ({ w.1 with err := some e }, some e)
    | none => writeRows w.1 rest

/-- `StreamFile.WriteAll`. -/
def WriteAllOp (sf : StreamFile) (records : List (List String)) :
    StreamFile × Option Err :=
  match sf.err with
  | some e => (sf, some e)
  | none => writeRows enc sf records

end SessionOps

/-- `StreamFile.Flush`.  Translated exactly: when `sf.err` is non-nil the
source runs `sf.err = sf.zipWriter.Flush()`, overwriting the sticky error
with the flush result (nil on success); when `sf.err` is nil it does
nothing. -/
def FlushOp (sf : StreamFile) : StreamFile :=
  match sf.err with
  | none => sf
  | some _ =>
    let fl := sf.archive.flush
    { sf with archive := fl.1, err := fl.2 }

/-- `StreamFile.writeSheetEnd`: append the data-section close tag and the
stored suffix template to the open entry.  The suffix array access
`sf.sheetXmlSuffix[index-1]` panics (outer `none`) when out of bounds. -/
def writeSheetEnd (sf : StreamFile) : Option (StreamFile × Option Err) :=
  match sf.currentSheet with
  | none => some (sf, some Err.noCurrentSheet)
  | some cs =>
    let wr := sf.archive.writeLast endSheetDataTag
    let sf1 := { sf with archive := wr.1 }
    match wr.2 with
    | some e => some (sf1, some e)
    | none =>
      match sf1.suffixTemplates.get? (cs.index - 1) with
      | none => none
      | some sfx =>
        let wr2 := sf1.archive.writeLast sfx
        some ({ sf1 with archive := wr2.1 }, wr2.2)

/-- The tail of `StreamFile.NextSheet` after `sheetIndex++`: construct the
new `streamSheet` (reading `file.Sheets[sheetIndex-1]`, a panic when out
of bounds), create the archive entry at the sheet's canonical path, and
write the stored prefix template (`writeSheetStart`). -/
def openNextSheet (sf : StreamFile) (idx : Nat) : Option (StreamFile × Option Err) :=
  match sf.sheets.get? (idx - 1) with
  | none => none
  | some colCount =>
    let sf1 := { sf with
      currentSheet := some { index := idx, rowCount := 1, columnCount := colCount } }
    let cr := sf1.archive.create (sheetPath idx)
    let sf2 := { sf1 with archive := cr.1 }
    match cr.2 with
    | some e => some ({ sf2 with err := some e }, some e)
    | none =>
      match sf2.prefixTemplates.get? (idx - 1) with
      | none => none
      | some pfx =>
        let wr := sf2.archive.writeLast pfx
        match wr.2 with
        | some e => some ({ sf2 with archive := wr.1, err := some e }, some e)
        | none => some ({ sf2 with archive := wr.1 }, none)

/-- `StreamFile.NextSheet`. -/
def NextSheet (sf : StreamFile) : Option (StreamFile × Option Err) :=
  match sf.err with
  | some e => some (sf, some e)
  | none =>
    match sf.currentSheet with
    | some cs =>
      if sf.sheets.length ≤ cs.index then
        some ({ sf with err := some Err.alreadyOnLastSheet },
              some Err.alreadyOnLastSheet)
      else
        match writeSheetEnd sf with
        | none => none
        | some (sf1, some e) =>
          some ({ sf1 with currentSheet := none, err := some e }, some e)
        | some (sf1, none) => openNextSheet sf1 (cs.index + 1)
    | none => openNextSheet sf 1

/-- The `for sf.currentSheet.index < len(sf.file.Sheets)` loop of
`StreamFile.Close`.  The loop runs at most `sheets.length` iterations
(each successful `NextSheet` advances the 1-based index by one), so Close
passes that as fuel; exhausted fuel is unreachable and modelled as
divergence (`none`), as is the nil dereference of `sf.currentSheet` in
the loop condition. -/
def closeLoop : Nat → StreamFile → Option (StreamFile × Option Err)
  | 0, sf =>
    match sf.currentSheet with
    | none => none
    | some cs => if sf.sheets.length ≤ cs.index then some (sf, none) else none
  | f + 1, sf =>
    match sf.currentSheet with
    | none => none
    | some cs =>
      if sf.sheets.length ≤ cs.index then some (sf, none)
      else
        match NextSheet sf with
        | none => none
        | some (sf1, some e) => some ({ sf1 with err := some e }, some e)
        | some (sf1, none) => closeLoop f sf1

section CloseOp

variable (sstXml : List String → String)

/-- `StreamFile.Close`.  `sstXml` is the opaque shared-string serializer
(`makeXLSXSST` + `marshalFullFile`, external to the source file); its Go
error path is not modelled (the serializer is total).  Note that the
source returns the errors of the shared-string entry creation and write
without storing them in `sf.err`; only the final `zipWriter.Close` error
is stored. -/
def Close (sf : StreamFile) : Option (StreamFile × Option Err) :=
  match sf.err with
  | some e => some (sf, some e)
  | none =>
    let afterSheets : Option (StreamFile × Option Err) :=
      match sf.currentSheet with
      | none => some (sf, none)
      | some _ =>
        match closeLoop sf.sheets.length sf with
        | none => none
        | some (sf1, some e) => some (sf1, some e)
        | some (sf1, none) =>
          match writeSheetEnd sf1 with
          | none => none
          | some (sf2, some e) => some ({ sf2 with err := some e }, some e)
          | some (sf2, none) => some (sf2, none)
    match afterSheets with
    | none => none
    | some (sf1, some e) => some (sf1, some e)
    | some (sf1, none) =>
      let sst := sstXml sf1.refTable
      let cr := sf1.archive.create sharedStringsFilePath
      let sf2 := { sf1 with archive := cr.1 }
      match cr.2 with
      | some e => some (sf2, some e)
      | none =>
        let wr := sf2.archive.writeLast sst
        let sf3 := { sf2 with archive := wr.1 }
        match wr.2 with
        | some e => some (sf3, some e)
        | none =>
          let cl := sf3.archive.closeArchive
          let sf4 := { sf3 with archive := cl.1 }
          match cl.2 with
          | some e => some ({ sf4 with err := some e }, some e)
          | none => some (sf4, none)

end CloseOp

/-- `StreamFileBuilder.AddSheet`.  The duplicate-name check is modelled
from the spec ("Sheet names must be unique"): `file.AddSheet` is external
to the source file.  The header-row write (`row.WriteSlice`) always
succeeds for a string slice, so its failure branch is unreachable and not
modelled. -/
def AddSheet (sb : StreamFileBuilder) (name : String) (headers : List String) :
    StreamFileBuilder × Option Err :=
  if sb.built then (sb, some Err.alreadyBuilt)
  else if sb.sheets.any (fun s => s.name == name) then
    ({ sb with built := true }, some Err.duplicateSheetName)
  else
    ({ sb with sheets := sb.sheets ++ [{ name := name, headers := headers }] }, none)

/-- `StreamFileBuilder.AddSharedStrings`.  Translated exactly: the source
has no `built` guard and no error return; it unconditionally interns
every string. -/
def AddSharedStrings (sb : StreamFileBuilder) (ss : List String) : StreamFileBuilder :=
  { sb with refTable := ss.foldl (fun rt s => (addString rt s).1) sb.refTable }

/-- First (leftmost) occurrence of the pattern `m` in `s`, as used by Go's
`strings.Split` for a non-empty separator.  Only called with the non-empty
separator `tagL`. -/
def findOcc (m : List Char) : List Char → Option Nat
  | [] => none
  | c :: s => if m <+: c :: s then some 0 else (findOcc m s).map (fun n => n + 1)

/-- Fuelled splitting of `s` around the non-overlapping, left-to-right
occurrences of `tagL`, the semantics of Go's
`strings.Split(data, endSheetDataTag)`.  Each recursive step removes at
least `tagL.length > 0` characters, so fuel `s.length + 1` always
suffices (`goSplitAux_fuel_irrel` below); fuel 0 is unreachable. -/
def goSplitAux (fuel : Nat) (s : List Char) : List (List Char) :=
  match fuel with
  | 0 => [s]
  | f + 1 =>
    match findOcc tagL s with
    | none => [s]
    | some i => s.take i :: goSplitAux f (s.drop (i + tagL.length))

/-- `strings.Split(s, endSheetDataTag)` on the character list `s`. -/
def goSplitTag (s : List Char) : List (List Char) := goSplitAux (s.length + 1) s

/-- Number of positions of `s` at which `m` occurs (as a contiguous
sublist starting there).  This is the "occurs exactly once" notion of the
specification; for the non-self-overlapping separator `tagL` it agrees
with the number of parts Go's `Split` produces minus one. -/
def occCount (m s : List Char) : Nat :=
  ((Finset.range (s.length + 1)).filter (fun i => m <+: s.drop i)).card

/-- `splitSheetIntoPrefixAndSuffix`: split the empty-sheet XML at the
`</sheetData>` tag; error unless `strings.Split` produced exactly two
parts. -/
def splitSheetIntoPrefixAndSuffix (data : String) : Except Err (String × String) :=
  match goSplitTag data.data with
  | [a, b] => Except.ok (String.mk a, String.mk b)
  | _ => Except.error Err.malformedTemplate

/-- Accumulate decimal digits; fails at the first non-digit. -/
def parseDigitsAux : List Char → Nat → Option Nat
  | [], acc => some acc
  | c :: cs, acc =>
    if c.isDigit then parseDigitsAux cs (acc * 10 + (c.toNat - 48)) else none

/-- Modelled from Go `strconv.Atoi`: an optional sign followed by at least
one decimal digit (overflow is not modelled; the parsed value is exact). -/
def goAtoi (s : String) : Option Int :=
  match s.data with
  | [] => none
  | '+' :: cs =>
    if cs = [] then none else (parseDigitsAux cs 0).map (fun n => (n : Int))
  | '-' :: cs =>
    if cs = [] then none else (parseDigitsAux cs 0).map (fun n => -(n : Int))
  | cs => (parseDigitsAux cs 0).map (fun n => (n : Int))

/-- `getSheetIndex`: parse the 1-based sheet index out of the entry path
`xl/worksheets/sheet<N>.xml` and bounds-check it.  The Go slice
`path[a : len(path)-4]` panics when the bounds invert (modelled by the
outer `none`); `strconv.Atoi` is modelled by `goAtoi`. -/
def getSheetIndex (sf : StreamFile) (path : String) : Option (Except Err Nat) :=
  let a := sheetFilePathStart.length
  let b := path.length - sheetFilePathEnding.length
  if a ≤ b then
    let indexString := String.mk ((path.data.take b).drop a)
    match goAtoi indexString with
    | none => some (Except.error Err.unexpectedSheetName)
    | some v =>
      if v < 1 ∨ (sf.prefixTemplates.length : Int) < v ∨
          (sf.suffixTemplates.length : Int) < v ∨ (sf.sheets.length : Int) < v then
        some (Except.error Err.unexpectedSheetIndex)
      else some (Except.ok (v.toNat - 1))
  else none

/-- `StreamFileBuilder.processEmptySheetXML`: record the prefix and suffix
templates of the sheet whose entry path this is. -/
def processEmptySheetXML (sf : StreamFile) (path data : String) :
    Option (Except Err StreamFile) :=
  match getSheetIndex sf path with
  | none => none
  | some (Except.error e) => some (Except.error e)
  | some (Except.ok i) =>
    match splitSheetIntoPrefixAndSuffix data with
    | Except.error e => some (Except.error e)
    | Except.ok ps =>
      some (Except.ok { sf with
        prefixTemplates := sf.prefixTemplates.set i ps.1,
        suffixTemplates := sf.suffixTemplates.set i ps.2 })

/-- The `for path, data := range parts` loop of `Build`: sheet entries are
recorded as templates, every other part is written verbatim as a metadata
entry.  The collaborator's parts are passed as an explicit list (Go
iterates a map in unspecified order; the claims are insensitive to it). -/
def processParts (sf : StreamFile) : List (String × String) → Option (Except Err StreamFile)
  | [] => some (Except.ok sf)
  | (path, data) :: rest =>
    if sheetFilePathStart.data.isPrefixOf path.data then
      match processEmptySheetXML sf path data with
      | none => none
      | some (Except.error e) => some (Except.error e)
      | some (Except.ok sf1) => processParts sf1 rest
    else
      let cr := sf.archive.create path
      let sf1 := { sf with archive := cr.1 }
      match cr.2 with
      | some e => some (Except.error e)
      | none =>
        let wr := sf1.archive.writeLast data
        let sf2 := { sf1 with archive := wr.1 }
        match wr.2 with
        | some e => some (Except.error e)
        | none => processParts sf2 rest

/-- `StreamFileBuilder.Build`.  `parts` stands for the output of the
external `file.MarshallPartsForStreaming` collaborator (whose own error
path is outside the source file).  A `none` result models a Go panic. -/
def Build (sb : StreamFileBuilder) (parts : List (String × String)) :
    Option (StreamFileBuilder × Except Err StreamFile) :=
  if sb.built then some (sb, Except.error Err.alreadyBuilt)
  else
    let sb1 := { sb with built := true }
    let sf0 : StreamFile := {
      sheets := sb1.sheets.map (fun s => s.headers.length)
      prefixTemplates := List.replicate sb1.sheets.length ""
      suffixTemplates := List.replicate sb1.sheets.length ""
      currentSheet := none
      refTable := sb1.refTable
      err := none
      archive := sb1.archive }
    match processParts sf0 parts with
    | none => none
    | some (Except.error e) => some (sb1, Except.error e)
    | some (Except.ok sf) =>
      match NextSheet sf with
      | none => none
      | some (_, some e) => some (sb1, Except.error e)
      | some (sf2, none) => some (sb1, Except.ok sf2)

/-- Concatenation of the encoded fragments of a row list starting at row
index `r0`, the content `WriteAll` appends on an error-free sink. -/
def concatFrags (enc : Nat → List String → String) (r0 : Nat) :
    List (List String) → String
  | [] => ""
  | row :: rest => enc r0 row ++ concatFrags enc (r0 + 1) rest

/-- Interning of a whole row list, in order. -/
def internRows (rt : List String) (rows : List (List String)) : List String :=
  rows.foldl internRow rt

/-- The entry a never-written sheet `j` receives: its prefix template, the
data-section close marker, and its suffix template. -/
def emptySheetEntry (pfxs sfxs : List String) (j : Nat) : String × String :=
  (sheetPath j, pfxs.getD (j - 1) "" ++ endSheetDataTag ++ sfxs.getD (j - 1) "")

/-! Concrete fixtures used by witnesses and counterexamples. -/

/-- A fresh, error-free archive. -/
def arch0 : Archive := { entriesRev := [], closed := false, faults := [] }

/-- A concrete instance of the opaque row encoder. -/
def encR : Nat → List String → String := fun _ _ => "<row/>"

/-- A concrete instance of the opaque shared-string serializer. -/
def sst0 : List String → String := fun _ => "<sst/>"

/-- A session whose sticky error is set (as after a wrong-width `Write`),
over an error-free sink. -/
def sfErrC1 : StreamFile := {
  sheets := [1], prefixTemplates := ["P"], suffixTemplates := ["S"],
  currentSheet := some { index := 1, rowCount := 1, columnCount := 1 },
  refTable := [], err := some Err.wrongNumberOfRows,
  archive := { entriesRev := [(sheetPath 1, "P")], closed := false, faults := [] } }

/-- A healthy one-sheet session whose sink will fail exactly at the third
sink call — the creation of the shared-strings entry during `Close`. -/
def sfPreC2 : StreamFile := {
  sheets := [1], prefixTemplates := ["P"], suffixTemplates := ["S"],
  currentSheet := some { index := 1, rowCount := 1, columnCount := 1 },
  refTable := [], err := none,
  archive := { entriesRev := [(sheetPath 1, "P")], closed := false,
               faults := [none, none, some "disk full"] } }

/-- A healthy one-sheet session over an error-free sink. -/
def sfPreC7 : StreamFile := {
  sheets := [1], prefixTemplates := ["P"], suffixTemplates := ["S"],
  currentSheet := some { index := 1, rowCount := 1, columnCount := 1 },
  refTable := [], err := none,
  archive := { entriesRev := [(sheetPath 1, "P")], closed := false, faults := [] } }

/-- A healthy two-sheet session positioned on sheet 1. -/
def sfWitC3 : StreamFile := {
  sheets := [1, 2], prefixTemplates := ["P1", "P2"], suffixTemplates := ["S1", "S2"],
  currentSheet := some { index := 1, rowCount := 2, columnCount := 1 },
  refTable := [], err := none,
  archive := { entriesRev := [(sheetPath 1, "P1<row/>")], closed := false, faults := [] } }

/-- A healthy three-sheet session positioned on sheet 1, sheets 2 and 3
never visited. -/
def sfWitC4 : StreamFile := {
  sheets := [2, 1, 1],
  prefixTemplates := ["P1", "P2", "P3"], suffixTemplates := ["S1", "S2", "S3"],
  currentSheet := some { index := 1, rowCount := 3, columnCount := 2 },
  refTable := ["a"], err := none,
  archive := { entriesRev := [(sheetPath 1, "X")], closed := false, faults := [] } }

/-- An already-built builder. -/
def sbBuiltC8 : StreamFileBuilder :=
  { built := true, sheets := [], refTable := [], archive := arch0 }

/-- A fresh builder with a single registered one-column sheet. -/
def sbOneSheet : StreamFileBuilder :=
  { built := false, sheets := [{ name := "S1", headers := ["A"] }],
    refTable := [], archive := arch0 }

/-- A fresh builder with no registered sheets. -/
def sbNoSheets : StreamFileBuilder :=
  { built := false, sheets := [], refTable := [], archive := arch0 }

/-! Helper lemmas. -/

theorem get?_eq_some_getD {α : Type} (l : List α) (n : Nat) (d : α)
    (h : n < l.length) : l.get? n = some (l.getD n d) := by
  show l.get? n = some ((l.get? n).getD d)
  rw [List.get?_eq_get h]
  rfl

/-- Unfolding equation of `closeLoop` (the equation generator cannot
produce it automatically because of the nested fuel match). -/
theorem closeLoop_eq (fuel : Nat) (sf : StreamFile) :
    closeLoop fuel sf =
      match sf.currentSheet with
      | none => none
      | some cs =>
        if sf.sheets.length ≤ cs.index then some (sf, none)
        else
          match fuel with
          | 0 => none
          | f + 1 =>
            match NextSheet sf with
            | none => none
            | some (sf1, some e) => some ({ sf1 with err := some e }, some e)
            | some (sf1, none) => closeLoop f sf1 := by
  cases fuel with
  | zero => rfl
  | succ f => rfl

/-- On an error-free, open archive, `create` opens a fresh empty entry. -/
theorem create_clean (a : Archive) (p : String)
    (hc : a.closed = false) (hf : a.faults = []) :
    a.create p = ({ a with entriesRev := (p, "") :: a.entriesRev }, none) := by
  simp [Archive.create, Archive.step, hc, hf]

/-- On an error-free, open archive, `writeLast` appends to the head entry. -/
theorem writeLast_clean (a : Archive) (d p c : String) (rest : List (String × String))
    (hc : a.closed = false) (hf : a.faults = []) (he : a.entriesRev = (p, c) :: rest) :
    a.writeLast d = ({ a with entriesRev := (p, c ++ d) :: rest }, none) := by
  simp [Archive.writeLast, Archive.step, hc, hf, he]

/-- On an error-free archive, `flush` is a no-op. -/
theorem flush_clean (a : Archive) (hf : a.faults = []) : a.flush = (a, none) := by
  simp [Archive.flush, Archive.step, hf]

/-- On an error-free, open archive, `closeArchive` marks it closed. -/
theorem closeArchive_clean (a : Archive) (hc : a.closed = false) (hf : a.faults = []) :
    a.closeArchive = ({ a with closed := true }, none) := by
  simp [Archive.closeArchive, Archive.step, hc, hf]

/-- On an error-free, open archive, `writeLast` appends to the head entry
(match form usable for rewriting). -/
theorem writeLast_clean2 (a : Archive) (d : String)
    (hc : a.closed = false) (hf : a.faults = []) :
    a.writeLast d = ({ a with entriesRev :=
      match a.entriesRev with
      | [] => []
      | (p, c) :: rest => (p, c ++ d) :: rest }, none) := by
  obtain ⟨er, cl, fa⟩ := a
  dsimp only at hc hf
  subst hc
  subst hf
  cases er with
  | nil => rfl
  | cons pc rest =>
    obtain ⟨p, c⟩ := pc
    rfl

/-- Every error a sink write can produce is a `sink` error. -/
theorem writeLast_err_sink (a : Archive) (d : String) :
    (a.writeLast d).2 = none ∨ ∃ m, (a.writeLast d).2 = some (Err.sink m) := by
  unfold Archive.writeLast
  split
  · exact Or.inr ⟨_, rfl⟩
  · split
    · exact Or.inr ⟨_, rfl⟩
    · split <;> simp

/-- Every error a sink flush can produce is a `sink` error. -/
theorem flush_err_sink (a : Archive) :
    (a.flush).2 = none ∨ ∃ m, (a.flush).2 = some (Err.sink m) := by
  unfold Archive.flush
  split
  · exact Or.inr ⟨_, rfl⟩
  · simp

/-- When the current sheet is set and the row width matches, the only
errors the row writer can produce come from the sink. -/
theorem write_err_shape (enc : Nat → List String → String)
    (sf : StreamFile) (cs : StreamSheet) (cells : List String)
    (hc : sf.currentSheet = some cs) (hlen : cells.length = cs.columnCount) :
    (write enc sf cells).2 = none ∨ ∃ m, (write enc sf cells).2 = some (Err.sink m) := by
  unfold write
  rw [hc]
  dsimp only
  rw [if_pos hlen]
  try dsimp only
  rcases writeLast_err_sink sf.archive (enc cs.rowCount cells) with hw | ⟨m, hw⟩ <;>
    rw [hw] <;> try dsimp only
  · rcases flush_err_sink (sf.archive.writeLast (enc cs.rowCount cells)).1 with
      hf | ⟨m2, hf⟩ <;> rw [hf] <;> try dsimp only
    · exact Or.inl rfl
    · exact Or.inr ⟨m2, rfl⟩
  · exact Or.inr ⟨m, rfl⟩

/-- When the current sheet is set and the row width matches, the only
errors `Write` can produce come from the sink. -/
theorem writeOp_err_shape (enc : Nat → List String → String)
    (sf : StreamFile) (cs : StreamSheet) (cells : List String)
    (he : sf.err = none) (hc : sf.currentSheet = some cs)
    (hlen : cells.length = cs.columnCount) :
    (WriteOp enc sf cells).2 = none ∨
      ∃ m, (WriteOp enc sf cells).2 = some (Err.sink m) := by
  unfold WriteOp
  rw [he]
  dsimp only
  rcases write_err_shape enc sf cs cells hc hlen with hw | ⟨m, hw⟩ <;>
    rw [hw] <;> try dsimp only
  · rcases flush_err_sink (write enc sf cells).1.archive with hf | ⟨m2, hf⟩ <;>
      rw [hf] <;> try dsimp only
    · exact Or.inl rfl
    · exact Or.inr ⟨m2, rfl⟩
  · exact Or.inr ⟨m, rfl⟩

/-! Claim theorems. -/

/-- Claim C1 (code bug).  The claim says that once the sticky error is
set it is never reset to nil and `Flush` performs no productive work; but
`StreamFile.Flush` runs `sf.err = sf.zipWriter.Flush()` exactly when
`sf.err != nil`, so on a session whose sticky error is set (here: after a
wrong-width `Write`) a succeeding sink flush resets the sticky error to
nil.  The guard's polarity is clearly inverted relative to the
documented sticky-error discipline of every other method. -/
theorem c1_flush_resets_sticky_error :
    sfErrC1.err = some Err.wrongNumberOfRows ∧ (FlushOp sfErrC1).err = none := by
  constructor <;> rfl

/-- Claim C5: with no sticky error and a current sheet of column count
`k`, `Write` with exactly `k` cells never fails with the column-count
error (whatever the sink does), and `Write` with any other length fails
with `WrongNumberOfRows`, leaving the whole session state — row counter
and archive entry included — unchanged except for the sticky error. -/
theorem c5_write_column_count (enc : Nat → List String → String)
    (sf : StreamFile) (cs : StreamSheet) (k : Nat) (cells : List String)
    (he : sf.err = none) (hc : sf.currentSheet = some cs) (hk : cs.columnCount = k) :
    (cells.length = k → (WriteOp enc sf cells).2 ≠ some Err.wrongNumberOfRows) ∧
    (cells.length ≠ k →
      WriteOp enc sf cells =
        ({ sf with err := some Err.wrongNumberOfRows }, some Err.wrongNumberOfRows)) := by
  constructor
  · intro hlen
    have hlen2 : cells.length = cs.columnCount := by rw [hk]; exact hlen
    rcases writeOp_err_shape enc sf cs cells he hc hlen2 with h | ⟨m, h⟩ <;>
      rw [h] <;> simp
  · intro hlen
    have hne : ¬cells.length = cs.columnCount := by rw [hk]; exact hlen
    simp only [WriteOp, write, he, hc, if_neg hne]

/-- Claim C5 witness: a two-column sheet accepts a two-cell row (no
column-count failure) and rejects a one-cell row. -/
theorem c5_write_column_count_witness :
    (WriteOp encR sfWitC4 ["x", "y"]).2 ≠ some Err.wrongNumberOfRows ∧
    (WriteOp encR sfWitC4 ["x"]).2 = some Err.wrongNumberOfRows :=
  ⟨(c5_write_column_count encR sfWitC4 { index := 1, rowCount := 3, columnCount := 2 } 2
      ["x", "y"] rfl rfl rfl).1 rfl,
   by
    rw [(c5_write_column_count encR sfWitC4 { index := 1, rowCount := 3, columnCount := 2 } 2
      ["x"] rfl rfl rfl).2 (by decide)]⟩

/-- Claim C7 (corrected, amended part): with no sticky error and no open
sheet — which happens only before the first sheet is opened — `Write`
(any row) and `WriteAll` (any non-empty record list) fail with
`NoCurrentSheet` and change nothing but the sticky error; in particular
nothing is appended to the archive. -/
theorem c7_write_noCurrentSheet_amended (enc : Nat → List String → String)
    (sf : StreamFile) (he : sf.err = none) (hc : sf.currentSheet = none) :
    (∀ cells, WriteOp enc sf cells =
      ({ sf with err := some Err.noCurrentSheet }, some Err.noCurrentSheet)) ∧
    (∀ row rows, WriteAllOp enc sf (row :: rows) =
      ({ sf with err := some Err.noCurrentSheet }, some Err.noCurrentSheet)) := by
  constructor
  · intro cells
    simp only [WriteOp, write, he, hc]
  · intro row rows
    simp only [WriteAllOp, writeRows, write, he, hc]

/-- Claim C7 witness: on a session before its first sheet is opened,
`Write` and `WriteAll` fail with `NoCurrentSheet`. -/
theorem c7_write_noCurrentSheet_witness :
    WriteOp encR { sfPreC7 with currentSheet := none } ["x"] =
      ({ sfPreC7 with currentSheet := none, err := some Err.noCurrentSheet },
        some Err.noCurrentSheet) ∧
    WriteAllOp encR { sfPreC7 with currentSheet := none } [["x"]] =
      ({ sfPreC7 with currentSheet := none, err := some Err.noCurrentSheet },
        some Err.noCurrentSheet) :=
  ⟨(c7_write_noCurrentSheet_amended encR { sfPreC7 with currentSheet := none }
      rfl rfl).1 ["x"],
   (c7_write_noCurrentSheet_amended encR { sfPreC7 with currentSheet := none }
      rfl rfl).2 ["x"] []⟩

/-- Claim C7 counterexample: after `Close` completes successfully on a
healthy session, the current sheet is still set, so the next `Write` does
not fail with `NoCurrentSheet` as the claim demands — it reaches the
sink, which (like Go's zip writer) rejects the write on a closed
archive with its own error. -/
theorem c7_write_after_close :
    (Close sst0 sfPreC7).map (fun pr => (pr.2, (WriteOp encR pr.1 ["x"]).2)) =
      some (none, some (Err.sink "zip: writer closed")) ∧
    some (Err.sink "zip: writer closed") ≠ some Err.noCurrentSheet := by
  constructor
  · rfl
  · decide

/-- Claim C8 (corrected, amended part): once `built` is set — by a
`Build` call or a failed `AddSheet` — `AddSheet` and `Build` fail with
`AlreadyBuilt` and leave the builder unchanged; and every failing
`AddSheet` leaves the builder in the terminal built state. -/
theorem c8_builder_one_shot_amended (sb : StreamFileBuilder) (h : sb.built = true) :
    (∀ name headers, AddSheet sb name headers = (sb, some Err.alreadyBuilt)) ∧
    (∀ parts, Build sb parts = some (sb, Except.error Err.alreadyBuilt)) ∧
    (∀ sb2 name headers sb3 e, AddSheet sb2 name headers = (sb3, some e) →
      sb3.built = true) := by
  refine ⟨?_, ?_, ?_⟩
  · intro name headers
    simp [AddSheet, h]
  · intro parts
    simp [Build, h]
  · intro sb2 name headers sb3 e hadd
    unfold AddSheet at hadd
    split at hadd
    · cases hadd
      next hb => exact hb
    · split at hadd
      · cases hadd
        rfl
      · cases hadd

/-- Claim C8 witness: on an already-built builder, `AddSheet` and `Build`
fail with `AlreadyBuilt` without touching the builder. -/
theorem c8_builder_one_shot_witness :
    AddSheet sbBuiltC8 "S" ["A"] = (sbBuiltC8, some Err.alreadyBuilt) ∧
    Build sbBuiltC8 [] = some (sbBuiltC8, Except.error Err.alreadyBuilt) :=
  ⟨(c8_builder_one_shot_amended sbBuiltC8 rfl).1 "S" ["A"],
   (c8_builder_one_shot_amended sbBuiltC8 rfl).2.1 []⟩

/-- Claim C8 counterexample: `AddSharedStrings` has no `built` guard and
no error return — on an already-built builder it still mutates the
shared-string table instead of failing with `AlreadyBuilt`. -/
theorem c8_addSharedStrings_unguarded :
    sbBuiltC8.built = true ∧
    (AddSharedStrings sbBuiltC8 ["a"]).refTable = ["a"] ∧
    sbBuiltC8.refTable = [] := by
  refine ⟨rfl, ?_, rfl⟩
  rfl

/-- Every error returned by `openNextSheet` is recorded in the sticky
error field of the returned state. -/
theorem openNext_err_recorded (sf : StreamFile) (idx : Nat) (sf1 : StreamFile)
    (e : Err) (h : openNextSheet sf idx = some (sf1, some e)) : sf1.err = some e := by
  unfold openNextSheet at h
  split at h
  · cases h
  · dsimp only at h
    split at h
    · simp only [Option.some.injEq, Prod.mk.injEq] at h
      obtain ⟨h1, h2⟩ := h
      subst h1
      simpa using h2
    · split at h
      · cases h
      · try dsimp only at h
        split at h
        · simp only [Option.some.injEq, Prod.mk.injEq] at h
          obtain ⟨h1, h2⟩ := h
          subst h1
          simpa using h2
        · simp only [Option.some.injEq, Prod.mk.injEq] at h
          obtain ⟨h1, h2⟩ := h
          cases h2

/-- Every error returned by `NextSheet` on a healthy session is recorded
in the sticky error field of the returned state. -/
theorem nextSheet_err_recorded (sf sf1 : StreamFile) (e : Err)
    (he : sf.err = none) (h : NextSheet sf = some (sf1, some e)) :
    sf1.err = some e := by
  unfold NextSheet at h
  cases hcs : sf.currentSheet with
  | none =>
    simp only [he, hcs] at h
    exact openNext_err_recorded _ _ _ _ h
  | some cs =>
    simp only [he, hcs] at h
    split at h
    · simp only [Option.some.injEq, Prod.mk.injEq] at h
      obtain ⟨h1, h2⟩ := h
      subst h1
      simpa using h2
    · split at h
      · cases h
      · simp only [Option.some.injEq, Prod.mk.injEq] at h
        obtain ⟨h1, h2⟩ := h
        subst h1
        simpa using h2
      · exact openNext_err_recorded _ _ _ _ h

/-- Claim C2 (corrected, amended part): the error of the per-row write
step is recorded as sticky by `Write` (and, by the same code path, by
`WriteAll`), and every error `NextSheet` returns is recorded as sticky.
(The counterexample shows the claim's universal form fails for `Close`'s
shared-string phase.) -/
theorem c2_errors_recorded_amended (enc : Nat → List String → String)
    (sf : StreamFile) (he : sf.err = none) :
    (∀ cells sf1 e, write enc sf cells = (sf1, some e) →
      WriteOp enc sf cells = ({ sf1 with err := some e }, some e)) ∧
    (∀ sf1 e, NextSheet sf = some (sf1, some e) → sf1.err = some e) := by
  constructor
  · intro cells sf1 e h
    simp only [WriteOp, he, h]
  · intro sf1 e h
    exact nextSheet_err_recorded sf sf1 e he h

/-- Claim C2 witness: a wrong-width row write is recorded as the sticky
error by `Write`. -/
theorem c2_errors_recorded_witness :
    WriteOp encR sfPreC7 ["x", "y"] =
      ({ sfPreC7 with err := some Err.wrongNumberOfRows },
        some Err.wrongNumberOfRows) :=
  (c2_errors_recorded_amended encR sfPreC7 rfl).1 ["x", "y"] sfPreC7
    Err.wrongNumberOfRows rfl

/-- Claim C2 counterexample: on a healthy one-sheet session whose sink
fails when `Close` creates the shared-strings entry, `Close` returns that
error but the stored sticky error stays `none` afterwards, so further
work is not refused — contradicting the claim that every error observed
by `Close` is recorded before it returns. -/
theorem c2_close_error_not_sticky :
    (Close sst0 sfPreC2).map (fun pr => (pr.1.err, pr.2)) =
      some (none, some (Err.sink "disk full")) := by
  rfl

theorem empty_append_str (s : String) : "" ++ s = s := rfl

/-- Success case of `NextSheet` from a healthy session that is not on the
last sheet: the current entry receives the close marker and the suffix
template, a new entry is opened at the next sheet's canonical path with
the prefix template as its first bytes, and the cursor advances with row
counter 1. -/
theorem nextSheet_advance (sf : StreamFile) (cs : StreamSheet)
    (p c : String) (rest : List (String × String))
    (he : sf.err = none) (hc : sf.currentSheet = some cs)
    (h1 : 1 ≤ cs.index) (hlt : cs.index < sf.sheets.length)
    (hp : sf.prefixTemplates.length = sf.sheets.length)
    (hs : sf.suffixTemplates.length = sf.sheets.length)
    (hcl : sf.archive.closed = false) (hf : sf.archive.faults = [])
    (ha : sf.archive.entriesRev = (p, c) :: rest) :
    NextSheet sf = some ({ sf with
      currentSheet := some { index := cs.index + 1, rowCount := 1,
                             columnCount := sf.sheets.getD cs.index 0 },
      archive := ⟨(sheetPath (cs.index + 1), sf.prefixTemplates.getD cs.index "") ::
          (p, c ++ endSheetDataTag ++ sf.suffixTemplates.getD (cs.index - 1) "") :: rest,
          false, []⟩ }, none) := by
  have hnle : ¬ sf.sheets.length ≤ cs.index := not_le.mpr hlt
  have hsuf : sf.suffixTemplates.get? (cs.index - 1) =
      some (sf.suffixTemplates.getD (cs.index - 1) "") :=
    get?_eq_some_getD _ _ _ (by omega)
  have hsh : sf.sheets.get? cs.index = some (sf.sheets.getD cs.index 0) :=
    get?_eq_some_getD _ _ _ hlt
  have hpfx : sf.prefixTemplates.get? cs.index =
      some (sf.prefixTemplates.getD cs.index "") :=
    get?_eq_some_getD _ _ _ (by omega)
  simp only [NextSheet, writeSheetEnd, openNextSheet, he, hc, if_neg hnle,
    writeLast_clean2, create_clean, hcl, hf, ha, Nat.add_sub_cancel,
    hsuf, hsh, hpfx, empty_append_str]

/-- Claim C3: from a healthy session on sheet `i` (`1 ≤ i ≤ n`,
`n` registered sheets): if `i = n`, `NextSheet` fails with
`AlreadyOnLastSheet`; otherwise it appends the marker `</sheetData>` and
the stored suffix template to the current entry, opens a new entry at
`xl/worksheets/sheet(i+1).xml`, writes the stored prefix template first,
sets the row counter to 1 and makes sheet `i+1` current. -/
theorem c3_nextSheet_transition (sf : StreamFile) (cs : StreamSheet)
    (p c : String) (rest : List (String × String))
    (he : sf.err = none) (hc : sf.currentSheet = some cs)
    (h1 : 1 ≤ cs.index) (hle : cs.index ≤ sf.sheets.length)
    (hp : sf.prefixTemplates.length = sf.sheets.length)
    (hs : sf.suffixTemplates.length = sf.sheets.length)
    (hcl : sf.archive.closed = false) (hf : sf.archive.faults = [])
    (ha : sf.archive.entriesRev = (p, c) :: rest) :
    (cs.index = sf.sheets.length →
      NextSheet sf = some ({ sf with err := some Err.alreadyOnLastSheet },
        some Err.alreadyOnLastSheet)) ∧
    (cs.index < sf.sheets.length →
      NextSheet sf = some ({ sf with
        currentSheet := some { index := cs.index + 1, rowCount := 1,
                               columnCount := sf.sheets.getD cs.index 0 },
        archive := ⟨(sheetPath (cs.index + 1), sf.prefixTemplates.getD cs.index "") ::
            (p, c ++ endSheetDataTag ++ sf.suffixTemplates.getD (cs.index - 1) "") :: rest,
            false, []⟩ }, none)) := by
  constructor
  · intro heq
    simp only [NextSheet, he, hc, if_pos (le_of_eq heq.symm)]
  · intro hlt
    exact nextSheet_advance sf cs p c rest he hc h1 hlt hp hs hcl hf ha

/-- Claim C3 witness: on a concrete two-sheet session sitting on sheet 1,
`NextSheet` closes entry 1 and opens `xl/worksheets/sheet2.xml` with the
stored prefix, row counter 1. -/
theorem c3_nextSheet_witness :
    NextSheet sfWitC3 = some ({ sfWitC3 with
      currentSheet := some { index := 2, rowCount := 1, columnCount := 2 },
      archive := ⟨[(sheetPath 2, "P2"), (sheetPath 1, "P1<row/></sheetData>S1")],
          false, []⟩ }, none) := by
  rw [(c3_nextSheet_transition sfWitC3
      { index := 1, rowCount := 2, columnCount := 1 }
      (sheetPath 1) "P1<row/>" [] rfl rfl (by decide) (by decide)
      rfl rfl rfl rfl rfl).2 (by decide)]
  decide

/-- A run of metadata-only parts over an error-free sink always succeeds
and only grows the archive. -/
theorem processParts_metadata (parts : List (String × String)) (sf : StreamFile)
    (hmeta : ∀ pd ∈ parts, sheetFilePathStart.data.isPrefixOf pd.1.data = false)
    (hcl : sf.archive.closed = false) (hf : sf.archive.faults = []) :
    ∃ es, processParts sf parts = some (Except.ok { sf with
      archive := ⟨es, false, []⟩ }) := by
  induction parts generalizing sf with
  | nil =>
    refine ⟨sf.archive.entriesRev, ?_⟩
    have hsf : ({ sf with archive := ⟨sf.archive.entriesRev, false, []⟩ } :
        StreamFile) = sf := by
      rw [← hcl, ← hf]
    rw [hsf]
    rfl
  | cons pd rest ih =>
    obtain ⟨path, data⟩ := pd
    have hm : sheetFilePathStart.data.isPrefixOf path.data = false :=
      hmeta (path, data) (List.mem_cons_self _ _)
    obtain ⟨es, hes⟩ := ih { sf with archive :=
        ⟨(path, data) :: sf.archive.entriesRev, false, []⟩ }
      (fun pd hpd => hmeta pd (List.mem_cons_of_mem _ hpd)) rfl rfl
    refine ⟨es, ?_⟩
    simp only [processParts, hm, Bool.false_eq_true, if_false, create_clean,
      hcl, hf, writeLast_clean2, empty_append_str]
    exact hes

/-- Claim C10: `Build` on a builder with no registered sheets, when the
collaborator produced no sheet-document parts, panics: the concluding
`NextSheet` call constructs the first `streamSheet` by reading
`sf.file.Sheets[0]` with no emptiness guard, an out-of-bounds access
(modelled as the `none` result), and no error value is returned. -/
theorem c10_build_no_sheets_panics (sb : StreamFileBuilder)
    (parts : List (String × String))
    (hb : sb.built = false) (hsheets : sb.sheets = [])
    (hmeta : ∀ pd ∈ parts, sheetFilePathStart.data.isPrefixOf pd.1.data = false)
    (hcl : sb.archive.closed = false) (hf : sb.archive.faults = []) :
    Build sb parts = none := by
  obtain ⟨es, hes⟩ := processParts_metadata parts
    { sheets := ([] : List SheetInfo).map (fun s => s.headers.length)
      prefixTemplates := List.replicate ([] : List SheetInfo).length ""
      suffixTemplates := List.replicate ([] : List SheetInfo).length ""
      currentSheet := none
      refTable := sb.refTable
      err := none
      archive := sb.archive } hmeta hcl hf
  simp only [Build, hb, Bool.false_eq_true, if_false, hsheets]
  rw [hes]
  rfl

/-- Claim C10 witness: the concrete zero-sheet `Build` panics. -/
theorem c10_build_no_sheets_witness : Build sbNoSheets [] = none :=
  c10_build_no_sheets_panics sbNoSheets [] rfl rfl (by simp) rfl rfl

/-- A found occurrence is a match. -/
theorem findOcc_matches (m : List Char) :
    ∀ (s : List Char) (i : Nat), findOcc m s = some i → m <+: s.drop i
  | [], i, h => by simp [findOcc] at h
  | c :: s, i, h => by
    simp only [findOcc] at h
    split at h
    · next hpre =>
      cases h
      simpa using hpre
    · next hpre =>
      cases hfo : findOcc m s with
      | none => rw [hfo] at h; cases h
      | some j =>
        rw [hfo] at h
        have h2 : j + 1 = i := by simpa using h
        subst h2
        exact findOcc_matches m s j hfo

/-- `findOcc` returns the first occurrence. -/
theorem findOcc_min (m : List Char) :
    ∀ (s : List Char) (i : Nat), findOcc m s = some i →
      ∀ j, j < i → ¬ m <+: s.drop j
  | [], i, h, j, hji => by simp [findOcc] at h
  | c :: s, i, h, j, hji => by
    simp only [findOcc] at h
    split at h
    · cases h
      exact absurd hji (Nat.not_lt_zero j)
    · next hpre =>
      cases hfo : findOcc m s with
      | none => rw [hfo] at h; cases h
      | some k =>
        rw [hfo] at h
        have h2 : k + 1 = i := by simpa using h
        subst h2
        cases j with
        | zero => simpa using hpre
        | succ j2 => exact findOcc_min m s k hfo j2 (by omega)

/-- When `findOcc` finds nothing, the pattern matches nowhere. -/
theorem findOcc_none_no_match (m : List Char) (hm : m ≠ []) :
    ∀ (s : List Char), findOcc m s = none → ∀ j, ¬ m <+: s.drop j
  | [], _, j => by
    simp only [List.drop_nil]
    intro hpre
    exact hm (List.prefix_nil.mp hpre)
  | c :: s, h, j => by
    simp only [findOcc] at h
    split at h
    · cases h
    · next hpre =>
      cases hfo : findOcc m s with
      | some k => rw [hfo] at h; cases h
      | none =>
        cases j with
        | zero => simpa using hpre
        | succ j2 => exact findOcc_none_no_match m hm s hfo j2

/-- A match at position `i` fits inside the list. -/
theorem prefix_drop_bound (m s : List Char) (i : Nat) (hm : m ≠ [])
    (h : m <+: s.drop i) : i + m.length ≤ s.length := by
  have h1 := h.length_le
  rw [List.length_drop] at h1
  have h2 : 0 < m.length := List.length_pos.mpr hm
  omega

/-- A match at position `i` splits the list as take/pattern/drop. -/
theorem prefix_drop_reconstruct (m s : List Char) (i : Nat)
    (h : m <+: s.drop i) :
    s.take i ++ m ++ s.drop (i + m.length) = s := by
  obtain ⟨u, hu⟩ := h
  have hdd : (s.drop i).drop m.length = s.drop (i + m.length) :=
    List.drop_drop m.length i s
  have hdrop : s.drop (i + m.length) = u := by
    rw [← hdd, ← hu, List.drop_left]
  rw [hdrop, List.append_assoc, hu, List.take_append_drop]

/-- Membership in the occurrence set of `occCount`. -/
theorem mem_occSet (m s : List Char) (hm : m ≠ []) (j : Nat) :
    (j ∈ (Finset.range (s.length + 1)).filter (fun i => m <+: s.drop i)) ↔
      m <+: s.drop j := by
  simp only [Finset.mem_filter, Finset.mem_range]
  constructor
  · rintro ⟨-, h⟩
    exact h
  · intro h
    refine ⟨?_, h⟩
    have hb := prefix_drop_bound m s j hm h
    have h2 : 0 < m.length := List.length_pos.mpr hm
    omega

/-- The tag `</sheetData>` has no non-trivial border: no proper non-empty
suffix of it is also a prefix of it.  Hence its occurrences cannot
overlap. -/
theorem tag_no_border : ∀ d, d < tagL.length → 0 < d →
    tagL.take (tagL.length - d) ≠ tagL.drop d := by decide

/-- Two distinct occurrences of the tag cannot overlap. -/
theorem no_overlap (s : List Char) (i j : Nat) (hij : i < j)
    (hj : j < i + tagL.length)
    (hi : tagL <+: s.drop i) (hjp : tagL <+: s.drop j) : False := by
  obtain ⟨u, hu⟩ := hi
  have hdpos : 0 < j - i := by omega
  have hdlt : j - i < tagL.length := by omega
  have hsj : s.drop j = tagL.drop (j - i) ++ u := by
    have h1 : s.drop j = (s.drop i).drop (j - i) := by
      rw [List.drop_drop]
      congr 1
      omega
    rw [h1, ← hu, List.drop_append_of_le_length (by omega)]
  rw [hsj] at hjp
  obtain ⟨v, hv⟩ := hjp
  have h3 := congrArg (List.take (tagL.length - (j - i))) hv
  rw [List.take_append_of_le_length (by omega)] at h3
  rw [List.take_append_of_le_length (by rw [List.length_drop])] at h3
  have h4 : (tagL.drop (j - i)).length = tagL.length - (j - i) :=
    List.length_drop _ _
  rw [← h4, List.take_length] at h3
  exact tag_no_border (j - i) hdlt hdpos (h4 ▸ h3)

/-- Any occurrence found by `findOcc tagL` fits inside the list. -/
theorem findOcc_lt (s : List Char) (i : Nat) (h : findOcc tagL s = some i) :
    i + tagL.length ≤ s.length :=
  prefix_drop_bound tagL s i (by decide) (findOcc_matches tagL s i h)

/-- Any two sufficient fuels give `goSplitAux` the same value. -/
theorem goSplitAux_fuel_irrel (n : Nat) : ∀ (s : List Char), s.length ≤ n →
    ∀ f1 f2, s.length < f1 → s.length < f2 →
      goSplitAux f1 s = goSplitAux f2 s := by
  induction n with
  | zero =>
    intro s hs f1 f2 h1 h2
    obtain ⟨a, rfl⟩ : ∃ a, f1 = a + 1 := ⟨f1 - 1, by omega⟩
    obtain ⟨b, rfl⟩ : ∃ b, f2 = b + 1 := ⟨f2 - 1, by omega⟩
    simp only [goSplitAux]
    cases hfo : findOcc tagL s with
    | none => rfl
    | some i =>
      have hb := findOcc_lt s i hfo
      have htl : tagL.length = 12 := by decide
      omega
  | succ k ih =>
    intro s hs f1 f2 h1 h2
    obtain ⟨a, rfl⟩ : ∃ a, f1 = a + 1 := ⟨f1 - 1, by omega⟩
    obtain ⟨b, rfl⟩ : ∃ b, f2 = b + 1 := ⟨f2 - 1, by omega⟩
    simp only [goSplitAux]
    cases hfo : findOcc tagL s with
    | none => rfl
    | some i =>
      have hb := findOcc_lt s i hfo
      have htl : tagL.length = 12 := by decide
      dsimp only
      congr 1
      exact ih (s.drop (i + tagL.length)) (by rw [List.length_drop]; omega)
        a b (by rw [List.length_drop]; omega) (by rw [List.length_drop]; omega)

/-- Unfolding `goSplitTag` when the tag does not occur. -/
theorem goSplitTag_none (s : List Char) (h : findOcc tagL s = none) :
    goSplitTag s = [s] := by
  simp only [goSplitTag, goSplitAux, h]

/-- Unfolding `goSplitTag` at the first occurrence. -/
theorem goSplitTag_some (s : List Char) (i : Nat) (h : findOcc tagL s = some i) :
    goSplitTag s = s.take i :: goSplitTag (s.drop (i + tagL.length)) := by
  have hb := findOcc_lt s i h
  have htl : tagL.length = 12 := by decide
  simp only [goSplitTag, goSplitAux, h]
  congr 1
  exact goSplitAux_fuel_irrel s.length (s.drop (i + tagL.length))
    (by rw [List.length_drop]; omega) s.length
    ((s.drop (i + tagL.length)).length + 1)
    (by rw [List.length_drop]; omega) (by omega)

/-- `strings.Split` never returns an empty part list. -/
theorem goSplitTag_ne_nil (s : List Char) : goSplitTag s ≠ [] := by
  cases hfo : findOcc tagL s with
  | none => rw [goSplitTag_none s hfo]; simp
  | some i => rw [goSplitTag_some s i hfo]; simp

/-- The split has exactly two parts iff there is a first occurrence with
no further occurrence after it. -/
theorem goSplitTag_pair_iff (s p q : List Char) :
    goSplitTag s = [p, q] ↔
      ∃ i, findOcc tagL s = some i ∧ p = s.take i ∧
        q = s.drop (i + tagL.length) ∧
        findOcc tagL (s.drop (i + tagL.length)) = none := by
  constructor
  · intro h
    cases hfo : findOcc tagL s with
    | none =>
      rw [goSplitTag_none s hfo] at h
      simp at h
    | some i =>
      rw [goSplitTag_some s i hfo] at h
      simp only [List.cons.injEq] at h
      obtain ⟨hp, hq⟩ := h
      cases hfo2 : findOcc tagL (s.drop (i + tagL.length)) with
      | some k =>
        rw [goSplitTag_some _ k hfo2] at hq
        simp only [List.cons.injEq] at hq
        exact absurd hq.2 (goSplitTag_ne_nil _)
      | none =>
        rw [goSplitTag_none _ hfo2] at hq
        simp only [List.cons.injEq, and_true] at hq
        exact ⟨i, rfl, hp.symm, hq.symm, hfo2⟩
  · rintro ⟨i, hfo, hp, hq, hq2⟩
    subst hp
    subst hq
    rw [goSplitTag_some s i hfo, goSplitTag_none _ hq2]

/-- A two-part split means the tag occurs exactly once, and the parts
reassemble to the original. -/
theorem occCount_one_of_split (s p q : List Char) (h : goSplitTag s = [p, q]) :
    occCount tagL s = 1 ∧ p ++ tagL ++ q = s := by
  obtain ⟨i, hfo, hp, hq, hq2⟩ := (goSplitTag_pair_iff s p q).mp h
  have hm : tagL ≠ [] := by decide
  have hi : tagL <+: s.drop i := findOcc_matches tagL s i hfo
  subst hp
  subst hq
  constructor
  · unfold occCount
    rw [Finset.card_eq_one]
    refine ⟨i, Finset.eq_singleton_iff_unique_mem.mpr ⟨(mem_occSet tagL s hm i).mpr hi, ?_⟩⟩
    intro j hj
    have hjp := (mem_occSet tagL s hm j).mp hj
    by_contra hne
    rcases lt_trichotomy j i with hlt | heq | hgt
    · exact findOcc_min tagL s i hfo j hlt hjp
    · exact hne heq
    · rcases lt_or_le j (i + tagL.length) with hover | hrest
      · exact no_overlap s i j hgt hover hi hjp
      · apply findOcc_none_no_match tagL hm _ hq2 (j - (i + tagL.length))
        rw [List.drop_drop]
        have harith : i + tagL.length + (j - (i + tagL.length)) = j := by omega
        rw [harith]
        exact hjp
  · exact prefix_drop_reconstruct tagL s i hi

/-- Exactly one occurrence of the tag means the split has two parts. -/
theorem split_of_occCount_one (s : List Char) (h : occCount tagL s = 1) :
    ∃ p q, goSplitTag s = [p, q] := by
  have hm : tagL ≠ [] := by decide
  unfold occCount at h
  obtain ⟨i, hi⟩ := Finset.card_eq_one.mp h
  have himem : i ∈ (Finset.range (s.length + 1)).filter (fun k => tagL <+: s.drop k) := by
    rw [hi]
    exact Finset.mem_singleton_self i
  have hiocc : tagL <+: s.drop i := (mem_occSet tagL s hm i).mp himem
  cases hfo : findOcc tagL s with
  | none => exact absurd hiocc (findOcc_none_no_match tagL hm s hfo i)
  | some i0 =>
    have hocc0 := findOcc_matches tagL s i0 hfo
    have hmem0 : i0 ∈ (Finset.range (s.length + 1)).filter (fun k => tagL <+: s.drop k) :=
      (mem_occSet tagL s hm i0).mpr hocc0
    rw [hi] at hmem0
    have hii : i0 = i := Finset.mem_singleton.mp hmem0
    subst hii
    have hnone : findOcc tagL (s.drop (i0 + tagL.length)) = none := by
      cases hfo2 : findOcc tagL (s.drop (i0 + tagL.length)) with
      | none => rfl
      | some k =>
        have hk := findOcc_matches tagL _ k hfo2
        rw [List.drop_drop] at hk
        have hmemk : (i0 + tagL.length + k) ∈
            (Finset.range (s.length + 1)).filter (fun j => tagL <+: s.drop j) :=
          (mem_occSet tagL s hm _).mpr hk
        rw [hi] at hmemk
        have := Finset.mem_singleton.mp hmemk
        have htl : 0 < tagL.length := by decide
        omega
    exact ⟨s.take i0, s.drop (i0 + tagL.length),
      (goSplitTag_pair_iff _ _ _).mpr ⟨i0, hfo, rfl, rfl, hnone⟩⟩

/-- String-level characterization of a successful split. -/
theorem splitSheet_ok_iff (data : String) (p q : String) :
    splitSheetIntoPrefixAndSuffix data = Except.ok (p, q) ↔
      goSplitTag data.data = [p.data, q.data] := by
  unfold splitSheetIntoPrefixAndSuffix
  split
  · next a b heq =>
    constructor
    · intro h
      simp only [Except.ok.injEq, Prod.mk.injEq] at h
      obtain ⟨h1, h2⟩ := h
      subst h1
      subst h2
      exact heq
    · intro h
      rw [heq] at h
      simp only [List.cons.injEq, and_true] at h
      obtain ⟨h1, h2⟩ := h
      subst h1
      subst h2
      rfl
  · next hne =>
    constructor
    · intro h
      cases h
    · intro h
      exact (hne p.data q.data h).elim

/-- A failed split always fails with the malformed-template error. -/
theorem splitSheet_err (data : String)
    (h : ∀ p q, splitSheetIntoPrefixAndSuffix data ≠ Except.ok (p, q)) :
    splitSheetIntoPrefixAndSuffix data = Except.error Err.malformedTemplate := by
  cases hsp : splitSheetIntoPrefixAndSuffix data with
  | ok pq =>
    obtain ⟨p, q⟩ := pq
    exact absurd hsp (h p q)
  | error e =>
    unfold splitSheetIntoPrefixAndSuffix at hsp
    split at hsp
    · cases hsp
    · cases hsp
      rfl

/-- `getSheetIndex` on the canonical path of sheet 1 of a one-sheet
session yields array index 0. -/
theorem getSheetIndex_one (sf : StreamFile)
    (hp : sf.prefixTemplates.length = 1) (hsu : sf.suffixTemplates.length = 1)
    (hsh : sf.sheets.length = 1) :
    getSheetIndex sf (sheetPath 1) = some (Except.ok 0) := by
  unfold getSheetIndex
  rw [hp, hsu, hsh]
  rfl

/-- Claim C6: splitting an empty-sheet document around the data-section
end marker `</sheetData>` succeeds iff the marker occurs at exactly one
position of the document; on success the returned prefix and suffix
satisfy prefix ++ marker ++ suffix = document, and on failure (zero or
several occurrences) `Build` fails with the malformed-template error. -/
theorem c6_split_marker (data : String) (sb : StreamFileBuilder)
    (hb : sb.built = false) (hs1 : sb.sheets.length = 1) :
    ((∃ p q, splitSheetIntoPrefixAndSuffix data = Except.ok (p, q)) ↔
      occCount tagL data.data = 1) ∧
    (∀ p q, splitSheetIntoPrefixAndSuffix data = Except.ok (p, q) →
      p ++ endSheetDataTag ++ q = data) ∧
    (occCount tagL data.data ≠ 1 →
      splitSheetIntoPrefixAndSuffix data = Except.error Err.malformedTemplate ∧
      Build sb [(sheetPath 1, data)] =
        some ({ sb with built := true }, Except.error Err.malformedTemplate)) := by
  have hiff : (∃ p q, splitSheetIntoPrefixAndSuffix data = Except.ok (p, q)) ↔
      occCount tagL data.data = 1 := by
    constructor
    · rintro ⟨p, q, hok⟩
      exact (occCount_one_of_split data.data p.data q.data
        ((splitSheet_ok_iff data p q).mp hok)).1
    · intro hocc
      obtain ⟨a, b, hab⟩ := split_of_occCount_one data.data hocc
      exact ⟨String.mk a, String.mk b,
        (splitSheet_ok_iff data (String.mk a) (String.mk b)).mpr hab⟩
  refine ⟨hiff, ?_, ?_⟩
  · intro p q hok
    have hre := (occCount_one_of_split data.data p.data q.data
      ((splitSheet_ok_iff data p q).mp hok)).2
    exact congrArg String.mk hre
  · intro hocc
    have herr : splitSheetIntoPrefixAndSuffix data = Except.error Err.malformedTemplate := by
      apply splitSheet_err
      intro p q hok
      exact hocc (hiff.mp ⟨p, q, hok⟩)
    refine ⟨herr, ?_⟩
    have hgsi := getSheetIndex_one
      { sheets := sb.sheets.map (fun s => s.headers.length)
        prefixTemplates := List.replicate sb.sheets.length ""
        suffixTemplates := List.replicate sb.sheets.length ""
        currentSheet := none
        refTable := sb.refTable
        err := none
        archive := sb.archive }
      (by simp [hs1]) (by simp [hs1]) (by simp [hs1])
    have hpre : sheetFilePathStart.data.isPrefixOf (sheetPath 1).data = true := by
      decide
    simp only [Build, hb, Bool.false_eq_true, if_false, processParts, hpre,
      eq_self_iff_true, if_true, processEmptySheetXML, hgsi, herr]

/-- Claim C6 witness: a concrete one-marker document splits and
reassembles; a concrete marker-free document makes `Build` fail with the
malformed-template error. -/
theorem c6_split_marker_witness :
    ("ab" ++ endSheetDataTag ++ "cd" = "ab</sheetData>cd") ∧
    Build sbOneSheet [(sheetPath 1, "oops")] =
      some ({ sbOneSheet with built := true }, Except.error Err.malformedTemplate) :=
  ⟨(c6_split_marker "ab</sheetData>cd" sbOneSheet rfl rfl).2.1 "ab" "cd" (by rfl),
   ((c6_split_marker "oops" sbOneSheet rfl rfl).2.2 (by decide)).2⟩

/-- Success case of the row writer on an error-free sink: the row counter
advances, the cells are interned, and the encoded fragment is appended to
the open entry. -/
theorem write_ok (enc : Nat → List String → String) (sf : StreamFile)
    (cs : StreamSheet) (cells : List String) (p c : String)
    (rest : List (String × String))
    (hc : sf.currentSheet = some cs) (hlen : cells.length = cs.columnCount)
    (hcl : sf.archive.closed = false) (hf : sf.archive.faults = [])
    (ha : sf.archive.entriesRev = (p, c) :: rest) :
    write enc sf cells = ({ sf with
      currentSheet := some { cs with rowCount := cs.rowCount + 1 },
      refTable := internRow sf.refTable cells,
      archive := ⟨(p, c ++ enc cs.rowCount cells) :: rest, false, []⟩ }, none) := by
  simp only [write, hc, if_pos hlen, writeLast_clean2, hcl, hf, ha, flush_clean]

/-- Failing case of the row writer: a wrong-width row changes nothing. -/
theorem write_wrong_width (enc : Nat → List String → String) (sf : StreamFile)
    (cs : StreamSheet) (cells : List String)
    (hc : sf.currentSheet = some cs) (hlen : cells.length ≠ cs.columnCount) :
    write enc sf cells = (sf, some Err.wrongNumberOfRows) := by
  simp only [write, hc, if_neg hlen]

/-- The `WriteAll` loop on all-valid rows writes every fragment in order
on an error-free sink. -/
theorem writeRows_all_ok (enc : Nat → List String → String) :
    ∀ (rows : List (List String)) (sf : StreamFile) (cs : StreamSheet)
      (p c : String) (rest : List (String × String)),
      sf.currentSheet = some cs →
      sf.archive.closed = false → sf.archive.faults = [] →
      sf.archive.entriesRev = (p, c) :: rest →
      (∀ r ∈ rows, r.length = cs.columnCount) →
      writeRows enc sf rows = ({ sf with
        currentSheet := some { cs with rowCount := cs.rowCount + rows.length },
        refTable := internRows sf.refTable rows,
        archive := ⟨(p, c ++ concatFrags enc cs.rowCount rows) :: rest,
          false, []⟩ }, none)
  | [], sf, cs, p, c, rest, hc, hcl, hf, ha, _ => by
    simp only [writeRows, flush_clean sf.archive hf, internRows, List.foldl_nil,
      concatFrags, String.append_empty, List.length_nil, Nat.add_zero]
    rw [← hc, ← ha, ← hcl, ← hf]
  | row :: rows, sf, cs, p, c, rest, hc, hcl, hf, ha, hall => by
    have hrow : row.length = cs.columnCount := hall row (List.mem_cons_self _ _)
    have hrest : ∀ r ∈ rows, r.length = cs.columnCount := fun r hr =>
      hall r (List.mem_cons_of_mem _ hr)
    have ihw := writeRows_all_ok enc rows
      { sf with
          currentSheet := some { cs with rowCount := cs.rowCount + 1 },
          refTable := internRow sf.refTable row,
          archive := ⟨(p, c ++ enc cs.rowCount row) :: rest, false, []⟩ }
      { cs with rowCount := cs.rowCount + 1 } p (c ++ enc cs.rowCount row) rest
      rfl rfl rfl rfl hrest
    have hstep : cs.rowCount + 1 + rows.length = cs.rowCount + (rows.length + 1) := by
      omega
    simp only [writeRows, write_ok enc sf cs row p c rest hc hrow hcl hf ha]
    rw [ihw]
    simp only [internRows, List.foldl_cons, concatFrags, String.append_assoc,
      hstep, List.length_cons]

/-- The `WriteAll` loop short-circuits at the first wrong-width row: the
valid rows before it are already written, the failure is recorded as the
sticky error, and nothing after it is written. -/
theorem writeRows_fail (enc : Nat → List String → String) :
    ∀ (good : List (List String)) (sf : StreamFile) (cs : StreamSheet)
      (p c : String) (rest : List (String × String)),
      sf.currentSheet = some cs →
      sf.archive.closed = false → sf.archive.faults = [] →
      sf.archive.entriesRev = (p, c) :: rest →
      (∀ r ∈ good, r.length = cs.columnCount) →
      ∀ (bad : List String) (tail : List (List String)),
        bad.length ≠ cs.columnCount →
        writeRows enc sf (good ++ bad :: tail) = ({ sf with
          currentSheet := some { cs with rowCount := cs.rowCount + good.length },
          refTable := internRows sf.refTable good,
          err := some Err.wrongNumberOfRows,
          archive := ⟨(p, c ++ concatFrags enc cs.rowCount good) :: rest,
            false, []⟩ }, some Err.wrongNumberOfRows)
  | [], sf, cs, p, c, rest, hc, hcl, hf, ha, _ => by
    intro bad tail hbad
    simp only [List.nil_append, writeRows,
      write_wrong_width enc sf cs bad hc hbad, internRows, List.foldl_nil,
      concatFrags, String.append_empty, List.length_nil, Nat.add_zero]
    rw [← hc, ← ha, ← hcl, ← hf]
  | row :: good, sf, cs, p, c, rest, hc, hcl, hf, ha, hall => by
    intro bad tail hbad
    have hrow : row.length = cs.columnCount := hall row (List.mem_cons_self _ _)
    have hrest : ∀ r ∈ good, r.length = cs.columnCount := fun r hr =>
      hall r (List.mem_cons_of_mem _ hr)
    have ihw := writeRows_fail enc good
      { sf with
          currentSheet := some { cs with rowCount := cs.rowCount + 1 },
          refTable := internRow sf.refTable row,
          archive := ⟨(p, c ++ enc cs.rowCount row) :: rest, false, []⟩ }
      { cs with rowCount := cs.rowCount + 1 } p (c ++ enc cs.rowCount row) rest
      rfl rfl rfl rfl hrest bad tail hbad
    have hstep : cs.rowCount + 1 + good.length = cs.rowCount + (good.length + 1) := by
      omega
    simp only [List.cons_append, writeRows,
      write_ok enc sf cs row p c rest hc hrow hcl hf ha]
    refine ihw.trans ?_
    simp only [internRows, List.foldl_cons, concatFrags, String.append_assoc,
      hstep, List.length_cons]

/-- Claim C9: on a healthy session over an error-free sink, `WriteAll`
writes the rows in order: if every row has the right width they are all
appended (in order, one fragment each) and the call succeeds; otherwise
the first wrong-width row stops the loop, the rows before it are already
written to the entry (no rollback), the failure is stored as the sticky
error and returned, and no later row is written. -/
theorem c9_writeAll_short_circuit (enc : Nat → List String → String)
    (sf : StreamFile) (cs : StreamSheet) (p c : String)
    (rest : List (String × String))
    (he : sf.err = none) (hc : sf.currentSheet = some cs)
    (hcl : sf.archive.closed = false) (hf : sf.archive.faults = [])
    (ha : sf.archive.entriesRev = (p, c) :: rest) :
    (∀ rows, (∀ r ∈ rows, r.length = cs.columnCount) →
      WriteAllOp enc sf rows = ({ sf with
        currentSheet := some { cs with rowCount := cs.rowCount + rows.length },
        refTable := internRows sf.refTable rows,
        archive := ⟨(p, c ++ concatFrags enc cs.rowCount rows) :: rest,
          false, []⟩ }, none)) ∧
    (∀ good bad tail, (∀ r ∈ good, r.length = cs.columnCount) →
      bad.length ≠ cs.columnCount →
      WriteAllOp enc sf (good ++ bad :: tail) = ({ sf with
        currentSheet := some { cs with rowCount := cs.rowCount + good.length },
        refTable := internRows sf.refTable good,
        err := some Err.wrongNumberOfRows,
        archive := ⟨(p, c ++ concatFrags enc cs.rowCount good) :: rest,
          false, []⟩ }, some Err.wrongNumberOfRows)) := by
  constructor
  · intro rows hall
    simp only [WriteAllOp, he]
    exact (writeRows_all_ok enc rows sf cs p c rest hc hcl hf ha hall).trans
      (by rw [he])
  · intro good bad tail hgood hbad
    simp only [WriteAllOp, he]
    exact writeRows_fail enc good sf cs p c rest hc hcl hf ha hgood bad tail hbad

/-- Claim C9 witness: on a concrete one-column session, a valid row
followed by a two-cell row and a further row stops after writing the
first row only, with the sticky error set. -/
theorem c9_writeAll_witness :
    WriteAllOp encR sfWitC3 [["a"], ["x", "y"], ["z"]] = ({ sfWitC3 with
      currentSheet := some { index := 1, rowCount := 3, columnCount := 1 },
      refTable := ["a"],
      err := some Err.wrongNumberOfRows,
      archive := ⟨[(sheetPath 1, "P1<row/><row/>")], false, []⟩ },
      some Err.wrongNumberOfRows) := by
  refine ((c9_writeAll_short_circuit encR sfWitC3
      { index := 1, rowCount := 2, columnCount := 1 } (sheetPath 1) "P1<row/>" []
      rfl rfl rfl rfl rfl).2 [["a"]] ["x", "y"] [["z"]]
      (by intro r hr; simp at hr; simp [hr]) (by decide)).trans ?_
  decide

/-- Closing the current sheet's entry on an error-free sink appends the
marker and the suffix template. -/
theorem writeSheetEnd_clean (sf : StreamFile) (cs : StreamSheet)
    (p c : String) (rest : List (String × String))
    (hc : sf.currentSheet = some cs) (h1 : 1 ≤ cs.index)
    (hle : cs.index ≤ sf.suffixTemplates.length)
    (hcl : sf.archive.closed = false) (hf : sf.archive.faults = [])
    (ha : sf.archive.entriesRev = (p, c) :: rest) :
    writeSheetEnd sf = some ({ sf with
      archive := ⟨(p, c ++ endSheetDataTag ++
          sf.suffixTemplates.getD (cs.index - 1) "") :: rest, false, []⟩ }, none) := by
  have hsuf : sf.suffixTemplates.get? (cs.index - 1) =
      some (sf.suffixTemplates.getD (cs.index - 1) "") :=
    get?_eq_some_getD _ _ _ (by omega)
  simp only [writeSheetEnd, hc, writeLast_clean2, hcl, hf, ha, hsuf]

/-- The sheet-visiting loop of `Close`, followed by the final
`writeSheetEnd`: each sheet after the current one receives a
prefix+marker+suffix entry (most recent first), and the current sheet's
entry is closed with marker+suffix. -/
theorem closeLoop_then_end (k : Nat) :
    ∀ (fuel : Nat) (sf : StreamFile) (cs : StreamSheet) (p c : String)
      (rest : List (String × String)),
      sf.err = none → sf.currentSheet = some cs →
      1 ≤ cs.index → sf.sheets.length - cs.index = k →
      cs.index ≤ sf.sheets.length →
      sf.prefixTemplates.length = sf.sheets.length →
      sf.suffixTemplates.length = sf.sheets.length →
      sf.archive.closed = false → sf.archive.faults = [] →
      sf.archive.entriesRev = (p, c) :: rest →
      k ≤ fuel →
      ∃ sfL, closeLoop fuel sf = some (sfL, none) ∧
        writeSheetEnd sfL = some ({ sf with
          currentSheet := sfL.currentSheet,
          archive := ⟨((List.range' (cs.index + 1) k).reverse.map
              (emptySheetEntry sf.prefixTemplates sf.suffixTemplates)) ++
            (p, c ++ endSheetDataTag ++
              sf.suffixTemplates.getD (cs.index - 1) "") :: rest,
            false, []⟩ }, none) := by
  induction k with
  | zero =>
    intro fuel sf cs p c rest he hc h1 hk hle hp hs hcl hf ha hfuel
    refine ⟨sf, ?_, ?_⟩
    · rw [closeLoop_eq, hc]
      dsimp only
      rw [if_pos (by omega : sf.sheets.length ≤ cs.index)]
    · rw [writeSheetEnd_clean sf cs p c rest hc h1 (by omega) hcl hf ha]
      simp only [List.range', List.reverse_nil, List.map_nil, List.nil_append, hc]
  | succ k ih =>
    intro fuel sf cs p c rest he hc h1 hk hle hp hs hcl hf ha hfuel
    obtain ⟨f, rfl⟩ : ∃ f, fuel = f + 1 := ⟨fuel - 1, by omega⟩
    have hadv := nextSheet_advance sf cs p c rest he hc h1 (by omega) hp hs hcl hf ha
    obtain ⟨sfL, hloop, hend⟩ := ih f
      ({ sf with
          currentSheet := some { index := cs.index + 1, rowCount := 1,
                                 columnCount := sf.sheets.getD cs.index 0 },
          archive := ⟨(sheetPath (cs.index + 1), sf.prefixTemplates.getD cs.index "") ::
            (p, c ++ endSheetDataTag ++ sf.suffixTemplates.getD (cs.index - 1) "") :: rest,
            false, []⟩ })
      { index := cs.index + 1, rowCount := 1,
        columnCount := sf.sheets.getD cs.index 0 }
      (sheetPath (cs.index + 1)) (sf.prefixTemplates.getD cs.index "")
      ((p, c ++ endSheetDataTag ++ sf.suffixTemplates.getD (cs.index - 1) "") :: rest)
      he rfl (Nat.le_add_left 1 cs.index)
      (show sf.sheets.length - (cs.index + 1) = k from by omega)
      (show cs.index + 1 ≤ sf.sheets.length from by omega)
      hp hs rfl rfl rfl (by omega)
    refine ⟨sfL, ?_, ?_⟩
    · rw [closeLoop_eq, hc]
      dsimp only
      rw [if_neg (by omega : ¬ sf.sheets.length ≤ cs.index)]
      rw [hadv]
      exact hloop
    · rw [hend]
      have hrange : List.range' (cs.index + 1) (k + 1) =
          (cs.index + 1) :: List.range' (cs.index + 2) k := by
        rw [List.range'_succ]
      simp only [hrange, List.reverse_cons, List.map_append, List.map_cons,
        List.map_nil, List.append_assoc, List.singleton_append,
        emptySheetEntry, Nat.add_sub_cancel]

/-- Claim C4: from a healthy session on sheet `i` (`1 ≤ i ≤ n`) over an
error-free sink, `Close` succeeds: every not-yet-visited sheet
`i+1 .. n` receives, by the repeated `NextSheet` transition, an entry
consisting exactly of its prefix template, the close marker and its
suffix template (zero data rows); the current sheet's entry is closed
with marker and suffix; the finalized shared-string table is then written
as a single whole-content entry at the fixed shared-strings path; and the
archive is closed. -/
theorem c4_close_finalizes (sstXml : List String → String) (sf : StreamFile)
    (cs : StreamSheet) (p c : String) (rest : List (String × String))
    (he : sf.err = none) (hc : sf.currentSheet = some cs)
    (h1 : 1 ≤ cs.index) (hle : cs.index ≤ sf.sheets.length)
    (hp : sf.prefixTemplates.length = sf.sheets.length)
    (hs : sf.suffixTemplates.length = sf.sheets.length)
    (hcl : sf.archive.closed = false) (hf : sf.archive.faults = [])
    (ha : sf.archive.entriesRev = (p, c) :: rest) :
    ∃ sfF, Close sstXml sf = some (sfF, none) ∧
      sfF.err = none ∧
      sfF.refTable = sf.refTable ∧
      sfF.archive.closed = true ∧
      sfF.archive.entriesRev =
        (sharedStringsFilePath, sstXml sf.refTable) ::
        ((List.range' (cs.index + 1) (sf.sheets.length - cs.index)).reverse.map
          (emptySheetEntry sf.prefixTemplates sf.suffixTemplates)) ++
        (p, c ++ endSheetDataTag ++
          sf.suffixTemplates.getD (cs.index - 1) "") :: rest := by
  obtain ⟨sfL, hloop, hend⟩ := closeLoop_then_end (sf.sheets.length - cs.index)
    sf.sheets.length sf cs p c rest he hc h1 rfl hle hp hs hcl hf ha (by omega)
  simp only [Close, he, hc, hloop, hend, create_clean, writeLast_clean2,
    closeArchive_clean, empty_append_str]
  exact ⟨_, rfl, rfl, rfl, rfl, rfl⟩

/-- Claim C4 witness: closing a concrete three-sheet session sitting on
sheet 1 writes empty-sheet entries for sheets 2 and 3, closes sheet 1's
entry, writes the shared-strings entry and closes the archive. -/
theorem c4_close_witness :
    ∃ sfF, Close sst0 sfWitC4 = some (sfF, none) ∧
      sfF.err = none ∧
      sfF.refTable = sfWitC4.refTable ∧
      sfF.archive.closed = true ∧
      sfF.archive.entriesRev =
        (sharedStringsFilePath, sst0 sfWitC4.refTable) ::
        ((List.range' 2 2).reverse.map
          (emptySheetEntry sfWitC4.prefixTemplates sfWitC4.suffixTemplates)) ++
        (sheetPath 1, "X" ++ endSheetDataTag ++ "S1") :: [] :=
  c4_close_finalizes sst0 sfWitC4 { index := 1, rowCount := 3, columnCount := 2 }
    (sheetPath 1) "X" [] rfl rfl (by decide) (by decide) rfl rfl rfl rfl rfl

end Xlsx
